import Mathlib

/-!
Joint-command arbitration loop of `example/g1/high_level/motor_control.cpp`.

A shallow embedding of the command parser, the input handler, the pending-command
queue and the fixed-period control loop, followed by theorems about them.

Conventions of the embedding:

* `float` values are rationals (`ℚ`).  The program never does arithmetic on them: it
  only stores and copies them, and uses the literals `0`, `1`, `60` and `1.5`.
* `std::stof` is library code.  It is a parameter `stof : String → Except StofError ℚ`;
  `Except.error` stands for the C++ exception it throws.
* `msg.motor_cmd()` and `state_msg.motor_state()` are fixed-size arrays indexed by
  `JointIndex`.  They are functions on `Nat`; every index the program uses is an
  enumerator of `JointIndex`, so `.at(i)` never fails.
* Text written to `std::cout` is not part of the state and is left out.
-/

namespace MotorControl

/-! ## JointIndex (lines 22-63) -/

def kLeftHipPitch : Nat := 0
def kLeftHipRoll : Nat := 1
def kLeftHipYaw : Nat := 2
def kLeftKnee : Nat := 3
def kLeftAnkle : Nat := 4
def kLeftAnkleRoll : Nat := 5
def kRightHipPitch : Nat := 6
def kRightHipRoll : Nat := 7
def kRightHipYaw : Nat := 8
def kRightKnee : Nat := 9
def kRightAnkle : Nat := 10
def kRightAnkleRoll : Nat := 11
def kWaistYaw : Nat := 12
def kWaistRoll : Nat := 13
def kWaistPitch : Nat := 14
def kLeftShoulderPitch : Nat := 15
def kLeftShoulderRoll : Nat := 16
def kLeftShoulderYaw : Nat := 17
def kLeftElbowPitch : Nat := 18
def kLeftElbowRoll : Nat := 19
def kRightShoulderPitch : Nat := 22
def kRightShoulderRoll : Nat := 23
def kRightShoulderYaw : Nat := 24
def kRightElbowPitch : Nat := 25
def kRightElbowRoll : Nat := 26
def kNotUsedJoint : Nat := 29
def kNotUsedJoint1 : Nat := 30
def kNotUsedJoint2 : Nat := 31
def kNotUsedJoint3 : Nat := 32
def kNotUsedJoint4 : Nat := 33
def kNotUsedJoint5 : Nat := 34

/-- The table `joint_name_map` (lines 66-80), as an association list. -/
def joint_name_map : List (String × Nat) :=
  [ ("left_shoulder_pitch", kLeftShoulderPitch),
    ("left_shoulder_roll", kLeftShoulderRoll),
    ("left_shoulder_yaw", kLeftShoulderYaw),
    ("left_elbow_pitch", kLeftElbowPitch),
    ("left_elbow_roll", kLeftElbowRoll),
    ("right_shoulder_pitch", kRightShoulderPitch),
    ("right_shoulder_roll", kRightShoulderRoll),
    ("right_shoulder_yaw", kRightShoulderYaw),
    ("right_elbow_pitch", kRightElbowPitch),
    ("right_elbow_roll", kRightElbowRoll),
    ("waist_yaw", kWaistYaw),
    ("waist_roll", kWaistRoll),
    ("waist_pitch", kWaistPitch) ]

/-- The call `joint_name_map.find(name)`: `none` is `joint_name_map.end()`, and
`some idx` is an iterator whose `second` is `idx`. -/
def findJoint (name : String) : Option Nat :=
  joint_name_map.lookup name

/-! ## MotorCommand (lines 83-93) -/

/-- The struct `MotorCommand`; the field defaults are those of its constructor
(line 92).  `joint_name` is default-constructed, hence empty. -/
structure MotorCommand where
  joint_name : String := ""
  position : ℚ := 0
  velocity : ℚ := 0
  kp : ℚ := 60
  kd : ℚ := 3 / 2
  tau : ℚ := 0
  valid : Bool := false
deriving DecidableEq

/-! ## parseCommand (lines 102-127) -/

/-- The exceptions `std::stof` throws. -/
inductive StofError where
  | invalid_argument
  | out_of_range
deriving DecidableEq, Repr

/-- The predicate `std::isspace` in the classic locale, which `iss >> token` uses to
delimit tokens: space, `\t`, `\n`, `\v`, `\f`, `\r`. -/
def isspace (c : Char) : Bool :=
  c == ' ' || c == '\t' || c == '\n' || c.toNat == 11 || c.toNat == 12 || c == '\r'

/-- The loop `while (iss >> token) tokens.push_back(token)` (lines 108-110) over the
characters still unread; `cur` holds the characters of the token being read, last
first.  Each extraction skips leading white space and then reads up to the next
white space or the end of the input; the loop ends when nothing can be extracted. -/
def readTokens : List Char → List Char → List String
  | [], cur => if cur.isEmpty then [] else [String.mk cur.reverse]
  | c :: cs, cur =>
    if isspace c then
      if cur.isEmpty then readTokens cs [] else String.mk cur.reverse :: readTokens cs []
    else readTokens cs (c :: cur)

/-- The vector `tokens` that lines 104-110 build from `input`. -/
def tokenize (input : String) : List String :=
  readTokens input.data []

/-- The function `parseCommand` (lines 102-127).  An exception thrown by `std::stof`
leaves the function, since nothing catches it: that is `Except.error`. -/
def parseCommand (stof : String → Except StofError ℚ) (input : String) :
    Except StofError MotorCommand :=
  let cmd : MotorCommand := {}
  let tokens := tokenize input
  if tokens.length < 3 then
    .ok cmd
  else do
    let cmd := { cmd with joint_name := tokens.getD 0 "" }
    let cmd := { cmd with position := ← stof (tokens.getD 1 "") }
    let cmd ← if tokens.length > 2 then
        (do pure { cmd with velocity := ← stof (tokens.getD 2 "") }) else pure cmd
    let cmd ← if tokens.length > 3 then
        (do pure { cmd with kp := ← stof (tokens.getD 3 "") }) else pure cmd
    let cmd ← if tokens.length > 4 then
        (do pure { cmd with kd := ← stof (tokens.getD 4 "") }) else pure cmd
    let cmd ← if tokens.length > 5 then
        (do pure { cmd with tau := ← stof (tokens.getD 5 "") }) else pure cmd
    pure { cmd with valid := true }

/-! ### A number reader for concrete inputs -/

/-- Value of a string of decimal digits. -/
def digitsValue (cs : List Char) : Nat :=
  cs.foldl (fun acc c => 10 * acc + (c.toNat - 48)) 0

/-- An instance of the `stof` parameter for concrete inputs.  Like `std::stof` it reads
the longest prefix that is a number and throws `invalid_argument` when there is
none; it knows the format `[+-]digits[.digits]` only (no exponent, hexadecimal,
`inf` or `nan`) and does not round to `float`. -/
def stofDecimal (s : String) : Except StofError ℚ :=
  let signed : Bool × List Char :=
    match s.data with
    | '-' :: cs => (true, cs)
    | '+' :: cs => (false, cs)
    | cs => (false, cs)
  let ip := signed.2.takeWhile Char.isDigit
  let fp :=
    match signed.2.dropWhile Char.isDigit with
    | '.' :: r => r.takeWhile Char.isDigit
    | _ => []
  if ip.isEmpty && fp.isEmpty then .error .invalid_argument
  else
    let v : ℚ := (digitsValue ip : ℚ) + (digitsValue fp : ℚ) / (10 : ℚ) ^ fp.length
    .ok (if signed.1 then -v else v)

/-! ## Shared globals and the input handler (lines 96-99, 130-176) -/

/-- The globals `running`, `control_enabled` and `pending_commands` with their
initial values (lines 96-99).  The mutex itself has no state of interest: every
access to `pending_commands` happens inside a critical section, which is one step
of the model. -/
structure Shared where
  running : Bool := true
  control_enabled : Bool := false
  pending_commands : List MotorCommand := []

/-- The critical section of the input handler, `pending_commands.push_back(cmd)`
(lines 167-168). -/
def enqueue (g : Shared) (cmd : MotorCommand) : Shared :=
  { g with pending_commands := g.pending_commands ++ [cmd] }

/-- The critical section of the control loop (lines 240-244): the copy
`commands_to_process = pending_commands`, then `pending_commands.clear()`. -/
def drain (g : Shared) : List MotorCommand × Shared :=
  (g.pending_commands, { g with pending_commands := [] })

/-- One pass through the body of the `while (running)` loop of `inputHandler`
for the line `input` that `std::getline` delivered (lines 147-174). -/
def handleLine (stof : String → Except StofError ℚ) (g : Shared) (input : String) :
    Except StofError Shared :=
  if input == "quit" || input == "exit" then
    .ok { g with running := false }
  else if input == "start" then
    .ok { g with control_enabled := true }
  else if input == "stop" then
    .ok { g with control_enabled := false }
  else if input == "status" then
    .ok g
  else if input == "list" then
    .ok g
  else if !input.isEmpty then do
    let cmd ← parseCommand stof input
    if cmd.valid then
      if (findJoint cmd.joint_name).isSome then
        .ok (enqueue g cmd)
      else
        .ok g
    else
      .ok g
  else
    .ok g

/-- The function `inputHandler` (lines 143-175) run over the lines that `std::getline`
delivers one after the other.  The `break` of line 149 ends the loop; when the
lines run out the handler is blocked in `std::getline` and the state so far is
returned. -/
def inputHandler (stof : String → Except StofError ℚ) :
    List String → Shared → Except StofError Shared
  | [], g => .ok g
  | input :: rest, g =>
    if g.running then
      if input == "quit" || input == "exit" then
        .ok { g with running := false }
      else
        match handleLine stof g input with
        | .ok g1 => inputHandler stof rest g1
        | .error e => .error e
    else
      .ok g

/-- A step of the two threads as far as the queue is concerned. -/
inductive QueueOp where
  | push (cmd : MotorCommand)
  | drainAll

/-- Runs queue steps in order; returns the batches the drains returned, oldest
first, and the final globals. -/
def runQueue : List QueueOp → Shared → List (List MotorCommand) × Shared
  | [], g => ([], g)
  | .push cmd :: ops, g => runQueue ops (enqueue g cmd)
  | .drainAll :: ops, g =>
    let r := runQueue ops (drain g).2
    ((drain g).1 :: r.1, r.2)

/-- The commands pushed by a list of queue steps, in order. -/
def pushed : List QueueOp → List MotorCommand
  | [] => []
  | .push cmd :: ops => cmd :: pushed ops
  | .drainAll :: ops => pushed ops

/-! ## The control loop of `main` (lines 207-305) -/

/-- The array `arm_joints` (lines 207-217). -/
def arm_joints : List Nat :=
  [ kLeftShoulderPitch, kLeftShoulderRoll, kLeftShoulderYaw, kLeftElbowPitch,
    kLeftElbowRoll,
    kRightShoulderPitch, kRightShoulderRoll, kRightShoulderYaw, kRightElbowPitch,
    kRightElbowRoll,
    kWaistYaw, kWaistRoll, kWaistPitch ]

/-- The element `arm_joints[i]`. -/
def armAt (i : Nat) : Nat := arm_joints.getD i 0

/-- One record of `msg.motor_cmd()`: the five fields the program writes.  A
default-constructed record is all zero. -/
structure MotorCmd where
  q : ℚ := 0
  dq : ℚ := 0
  kp : ℚ := 0
  kd : ℚ := 0
  tau : ℚ := 0
deriving DecidableEq

/-- Array write `a[i] = v`. -/
def setAt {α : Type} (a : Nat → α) (i : Nat) (v : α) : Nat → α :=
  fun k => if k = i then v else a k

/-- The variables of `main` that live across iterations of the control loop: the
message `msg` (line 188) and `current_positions` (line 220). -/
structure LoopState where
  msg : Nat → MotorCmd := fun _ => {}
  current_positions : Nat → ℚ := fun _ => 0

/-- What one iteration of the control loop reads from outside: the value of
`running` at the loop test, the batch copied out of `pending_commands`, the value
of `control_enabled` at line 247, and the positions `state_msg.motor_state().at(j).q()`
read at line 253. -/
structure TickObs where
  running : Bool := true
  commands_to_process : List MotorCommand := []
  control_enabled : Bool := false
  state_q : Nat → ℚ := fun _ => 0

/-- The loop of lines 252-254: `current_positions[i] = state.at(arm_joints[i]).q()`. -/
def seedPositions (state_q : Nat → ℚ) (cp : Nat → ℚ) : Nat → ℚ :=
  (List.range arm_joints.length).foldl (fun cp i => setAt cp i (state_q (armAt i))) cp

/-- The loop of lines 263-268 over the indices still to visit: the first `i` with
`arm_joints[i] == joint_idx` gets `position`, then `break`. -/
def setFirstMatch (joint_idx : Nat) (position : ℚ) : List Nat → (Nat → ℚ) → (Nat → ℚ)
  | [], cp => cp
  | i :: rest, cp =>
    if armAt i = joint_idx then setAt cp i position
    else setFirstMatch joint_idx position rest cp

/-- The body of the loop over `commands_to_process` (lines 258-279). -/
def applyCommand (s : LoopState) (cmd : MotorCommand) : LoopState :=
  match findJoint cmd.joint_name with
  | none => s
  | some joint_idx =>
    { current_positions :=
        setFirstMatch joint_idx cmd.position (List.range arm_joints.length) s.current_positions,
      msg := setAt s.msg joint_idx
        { q := cmd.position, dq := cmd.velocity, kp := cmd.kp, kd := cmd.kd, tau := cmd.tau } }

/-- The loop of lines 283-289: every controlled joint gets its `current_positions`
entry and the default velocity, gains and torque of lines 223-226. -/
def writeJoints (cp : Nat → ℚ) (msg : Nat → MotorCmd) : Nat → MotorCmd :=
  (List.range arm_joints.length).foldl
    (fun msg i => setAt msg (armAt i) { q := cp i, dq := 0, kp := 60, kd := 3 / 2, tau := 0 })
    msg

/-- The write `msg.motor_cmd().at(JointIndex::kNotUsedJoint).q(w)`. -/
def setWeight (msg : Nat → MotorCmd) (w : ℚ) : Nat → MotorCmd :=
  setAt msg kNotUsedJoint { msg kNotUsedJoint with q := w }

/-- One iteration of the control loop, lines 238-293, up to the `Write`.  The frame
that line 296 publishes is the `msg` of the result. -/
def tick (s : LoopState) (o : TickObs) : LoopState :=
  if o.control_enabled then
    let s1 : LoopState :=
      { msg := setWeight s.msg 1,
        current_positions := seedPositions o.state_q s.current_positions }
    let s2 := o.commands_to_process.foldl applyCommand s1
    { s2 with msg := writeJoints s2.current_positions s2.msg }
  else
    { s with msg := setWeight s.msg 0 }

/-- Several iterations in a row. -/
def runTicks (s : LoopState) (obs : List TickObs) : LoopState :=
  obs.foldl tick s

/-- The control loop with its epilogue (lines 237-305) over the observations of
successive iterations.  The result is the list of frames handed to `Write`, oldest
first, and whether the loop was left: an observation with `running = false` ends
the loop, after which lines 304-305 publish once more.  When the observations run
out the loop is still going and the flag is `false`. -/
def mainLoop : List TickObs → LoopState → List (Nat → MotorCmd) × Bool
  | [], _ => ([], false)
  | o :: rest, s =>
    if o.running then
      let r := mainLoop rest (tick s o)
      ((tick s o).msg :: r.1, r.2)
    else
      ([setWeight s.msg 0], true)

/-- The command `cmd` resolves to joint index `j`. -/
def targets (cmd : MotorCommand) (j : Nat) : Prop :=
  findJoint cmd.joint_name = some j

instance (cmd : MotorCommand) (j : Nat) : Decidable (targets cmd j) := by
  unfold targets; infer_instance

/-! ## The two threads together (lines 232-310) -/

/-- A step of one of the two threads of the program. -/
inductive ProgEvent where
  /-- The input thread evaluates `while (running)` (line 143) and, when it holds,
  reads the line `input` and runs the loop body on it. -/
  | line (input : String)
  /-- The main thread evaluates `while (running)` (line 237) and, when it holds, runs
  one iteration with the mirror reading `state_q`; otherwise it runs lines 302-305. -/
  | iteration (state_q : Nat → ℚ)

/-- The state of the whole program: the globals, the variables of `main`, the frames
handed to `Write` so far (oldest first), whether `inputHandler` has returned,
whether `main` has left the control loop and run lines 302-305, and whether
`std::terminate` has ended the process (an exception left the input thread). -/
structure ProgState where
  shared : Shared := {}
  loop : LoopState := {}
  published : List (Nat → MotorCmd) := []
  handler_returned : Bool := false
  loop_left : Bool := false
  terminated : Bool := false

/-- One step of the program.  Each step runs without the other thread in between,
which is one of the schedules the program has.  A terminated process does nothing;
an exception leaving `inputHandler` terminates the process, since `inputHandler`
is the function of a `std::thread` (line 232) and nothing catches it. -/
def stepProgram (stof : String → Except StofError ℚ) (p : ProgState) : ProgEvent → ProgState
  | .line input =>
    if p.terminated || p.handler_returned then p
    else if p.shared.running then
      if input == "quit" || input == "exit" then
        { p with shared := { p.shared with running := false }, handler_returned := true }
      else
        match handleLine stof p.shared input with
        | .ok g => { p with shared := g }
        | .error _ => { p with terminated := true }
    else { p with handler_returned := true }
  | .iteration state_q =>
    if p.terminated || p.loop_left then p
    else if p.shared.running then
      let d := drain p.shared
      let l := tick p.loop
        { running := true, commands_to_process := d.1,
          control_enabled := d.2.control_enabled, state_q := state_q }
      { p with shared := d.2, loop := l, published := p.published ++ [l.msg] }
    else
      { p with loop := { p.loop with msg := setWeight p.loop.msg 0 },
               published := p.published ++ [setWeight p.loop.msg 0],
               loop_left := true }

/-- A run of the program over a schedule of steps. -/
def runProgram (stof : String → Except StofError ℚ) (events : List ProgEvent)
    (p : ProgState) : ProgState :=
  events.foldl (stepProgram stof) p

/-! ## Sample inputs -/

/-- A command as the input handler queues it for a line `name position velocity`
with velocity `0`: the remaining fields keep the constructor defaults. -/
def cmdFor (name : String) (position : ℚ) : MotorCommand :=
  { joint_name := name, position := position, valid := true }

/-- An enabled iteration that drains `left_shoulder_pitch 1` while the mirror reads 0. -/
def obsCommand : TickObs :=
  { commands_to_process := [cmdFor "left_shoulder_pitch" 1], control_enabled := true }

/-- An enabled iteration that drains nothing while the mirror reads 5 everywhere. -/
def obsIdle : TickObs :=
  { control_enabled := true, state_q := fun _ => 5 }

/-- An enabled iteration that drains `left_shoulder_pitch 1`, `left_shoulder_pitch 2`. -/
def obsTwice : TickObs :=
  { commands_to_process := [cmdFor "left_shoulder_pitch" 1, cmdFor "left_shoulder_pitch" 2],
    control_enabled := true, state_q := fun _ => 7 }

/-- An enabled iteration that drains `waist_yaw 3` while the mirror reads 4 everywhere. -/
def obsWaist : TickObs :=
  { commands_to_process := [cmdFor "waist_yaw" 3], control_enabled := true,
    state_q := fun _ => 4 }

/-- The loop test that reads `running = false`. -/
def obsStop : TickObs :=
  { running := false }

/-- A disabled iteration that drains `left_shoulder_pitch 1`. -/
def obsDisabledCommand : TickObs :=
  { commands_to_process := [cmdFor "left_shoulder_pitch" 1], control_enabled := false }

/-- The command queued for the line `left_shoulder_pitch 1 0.5 40 2 1`. -/
def cmdGains : MotorCommand :=
  { joint_name := "left_shoulder_pitch", position := 1, velocity := 1 / 2, kp := 40, kd := 2,
    tau := 1, valid := true }

/-- An enabled iteration that drains `cmdGains` while the mirror reads 0. -/
def obsGains : TickObs :=
  { commands_to_process := [cmdGains], control_enabled := true }

/-- The operator types `start`; the loop runs an iteration; the operator types
`left_elbow_roll abc 0`; whatever is scheduled afterwards comes too late. -/
def abortSchedule : List ProgEvent :=
  [ .line "start", .iteration (fun _ => 0), .line "left_elbow_roll abc 0",
    .iteration (fun _ => 0), .line "quit", .iteration (fun _ => 0) ]

/-! ## Auxiliary lemmas -/

theorem setAt_same {α : Type} (a : Nat → α) (i : Nat) (v : α) : setAt a i v i = v := by
  simp [setAt]

theorem setAt_other {α : Type} (a : Nat → α) (i k : Nat) (v : α) (h : k ≠ i) :
    setAt a i v k = a k := by
  simp [setAt, h]

theorem arm_joints_length : arm_joints.length = 13 := rfl

theorem armAt_inj : ∀ a < 13, ∀ b < 13, armAt a = armAt b → a = b := by decide

theorem armAt_ne_weight : ∀ i < 13, armAt i ≠ kNotUsedJoint := by decide

theorem mem_arm_joints (j : Nat) : j ∈ arm_joints ↔ ∃ i, i < 13 ∧ armAt i = j := by
  constructor
  · intro h
    simp only [arm_joints, List.mem_cons, List.mem_singleton, List.not_mem_nil, or_false] at h
    rcases h with h | h | h | h | h | h | h | h | h | h | h | h | h
    · exact ⟨0, by decide, h.symm ▸ rfl⟩
    · exact ⟨1, by decide, h.symm ▸ rfl⟩
    · exact ⟨2, by decide, h.symm ▸ rfl⟩
    · exact ⟨3, by decide, h.symm ▸ rfl⟩
    · exact ⟨4, by decide, h.symm ▸ rfl⟩
    · exact ⟨5, by decide, h.symm ▸ rfl⟩
    · exact ⟨6, by decide, h.symm ▸ rfl⟩
    · exact ⟨7, by decide, h.symm ▸ rfl⟩
    · exact ⟨8, by decide, h.symm ▸ rfl⟩
    · exact ⟨9, by decide, h.symm ▸ rfl⟩
    · exact ⟨10, by decide, h.symm ▸ rfl⟩
    · exact ⟨11, by decide, h.symm ▸ rfl⟩
    · exact ⟨12, by decide, h.symm ▸ rfl⟩
  · rintro ⟨i, hi, rfl⟩
    revert i
    decide

theorem lookup_mem_values {α β : Type} [BEq α] :
    ∀ (l : List (α × β)) (a : α) (b : β), l.lookup a = some b → b ∈ l.map Prod.snd
  | [], _, _, h => by simp [List.lookup] at h
  | (k, v) :: l, a, b, h => by
    simp only [List.lookup] at h
    split at h
    · simp only [Option.some.injEq] at h
      simp [h]
    · simp [lookup_mem_values l a b h]

theorem findJoint_mem (name : String) (j : Nat) (h : findJoint name = some j) :
    j ∈ arm_joints := by
  have h1 := lookup_mem_values joint_name_map name j h
  revert h1
  simp only [joint_name_map, arm_joints, List.map, List.mem_cons, List.mem_singleton,
    List.not_mem_nil, or_false]
  intro h1
  rcases h1 with h | h | h | h | h | h | h | h | h | h | h | h | h <;> simp [h]

theorem not_targets_weight (cmd : MotorCommand) : ¬ targets cmd kNotUsedJoint := by
  intro h
  have := findJoint_mem _ _ h
  revert this
  decide

theorem foldl_setAt_of_not_mem {α : Type} (g : Nat → Nat) (v : Nat → α) (k : Nat) :
    ∀ (l : List Nat) (a : Nat → α), (∀ i ∈ l, g i ≠ k) →
      l.foldl (fun a i => setAt a (g i) (v i)) a k = a k
  | [], _, _ => rfl
  | x :: xs, a, h => by
    rw [List.foldl_cons, foldl_setAt_of_not_mem g v k xs _ (fun i hi => h i (by simp [hi]))]
    exact setAt_other _ _ _ _ (Ne.symm (h x (by simp)))

theorem foldl_setAt_of_mem {α : Type} (g : Nat → Nat) (v : Nat → α) :
    ∀ (l : List Nat) (a : Nat → α) (i : Nat), i ∈ l →
      (∀ x ∈ l, ∀ y ∈ l, g x = g y → x = y) →
      l.foldl (fun a i => setAt a (g i) (v i)) a (g i) = v i
  | [], _, _, hi, _ => by simp at hi
  | x :: xs, a, i, hi, hinj => by
    rw [List.foldl_cons]
    by_cases hxs : i ∈ xs
    · exact foldl_setAt_of_mem g v xs _ i hxs
        (fun p hp r hr => hinj p (by simp [hp]) r (by simp [hr]))
    · have hix : i = x := by
        rcases List.mem_cons.mp hi with h | h
        · exact h
        · exact absurd h hxs
      subst hix
      rw [foldl_setAt_of_not_mem g v (g i) xs _ ?_]
      · exact setAt_same _ _ _
      · intro y hy hgy
        have : y = i := hinj y (by simp [hy]) i (by simp) hgy
        exact hxs (this ▸ hy)

theorem range_inj_armAt :
    ∀ x ∈ List.range arm_joints.length, ∀ y ∈ List.range arm_joints.length,
      armAt x = armAt y → x = y := by
  intro x hx y hy h
  rw [arm_joints_length, List.mem_range] at hx hy
  exact armAt_inj x hx y hy h

theorem seedPositions_apply (state_q cp : Nat → ℚ) (i : Nat) (hi : i < 13) :
    seedPositions state_q cp i = state_q (armAt i) := by
  unfold seedPositions
  exact foldl_setAt_of_mem (fun i => i) (fun i => state_q (armAt i)) _ cp i
    (by rw [arm_joints_length, List.mem_range]; exact hi) (fun _ _ _ _ h => h)

theorem writeJoints_apply (cp : Nat → ℚ) (msg : Nat → MotorCmd) (i : Nat) (hi : i < 13) :
    writeJoints cp msg (armAt i) = { q := cp i, dq := 0, kp := 60, kd := 3 / 2, tau := 0 } := by
  unfold writeJoints
  exact foldl_setAt_of_mem armAt
    (fun i => ({ q := cp i, dq := 0, kp := 60, kd := 3 / 2, tau := 0 } : MotorCmd)) _ msg i
    (by rw [arm_joints_length, List.mem_range]; exact hi) range_inj_armAt

theorem writeJoints_other (cp : Nat → ℚ) (msg : Nat → MotorCmd) (k : Nat)
    (hk : k ∉ arm_joints) : writeJoints cp msg k = msg k := by
  unfold writeJoints
  apply foldl_setAt_of_not_mem
  intro i hi h
  rw [arm_joints_length, List.mem_range] at hi
  exact hk ((mem_arm_joints k).mpr ⟨i, hi, h⟩)

theorem setFirstMatch_other (j : Nat) (p : ℚ) (k : Nat) (hk : armAt k ≠ j) :
    ∀ (l : List Nat) (cp : Nat → ℚ), setFirstMatch j p l cp k = cp k
  | [], _ => rfl
  | x :: xs, cp => by
    unfold setFirstMatch
    split
    · rename_i hx
      apply setAt_other
      intro hkx
      exact hk (hkx ▸ hx)
    · exact setFirstMatch_other j p k hk xs cp

theorem setFirstMatch_hit (j : Nat) (p : ℚ) (k : Nat) (hk : armAt k = j) :
    ∀ (l : List Nat) (cp : Nat → ℚ), k ∈ l → (∀ x ∈ l, armAt x = j → x = k) →
      setFirstMatch j p l cp k = p
  | [], _, hmem, _ => by simp at hmem
  | x :: xs, cp, hmem, huniq => by
    unfold setFirstMatch
    split
    · rename_i hx
      have : x = k := huniq x (by simp) hx
      subst this
      exact setAt_same _ _ _
    · rename_i hx
      have hkxs : k ∈ xs := by
        rcases List.mem_cons.mp hmem with h | h
        · exact absurd (h ▸ hk) hx
        · exact h
      exact setFirstMatch_hit j p k hk xs cp hkxs (fun y hy => huniq y (by simp [hy]))

theorem applyCommand_msg_other (s : LoopState) (cmd : MotorCommand) (k : Nat)
    (h : ¬ targets cmd k) : (applyCommand s cmd).msg k = s.msg k := by
  unfold applyCommand
  split
  · rfl
  · rename_i j hj
    apply setAt_other
    intro hkj
    exact h (by unfold targets; rw [hj, hkj])

theorem applyCommand_cp_other (s : LoopState) (cmd : MotorCommand) (i : Nat)
    (h : ¬ targets cmd (armAt i)) :
    (applyCommand s cmd).current_positions i = s.current_positions i := by
  unfold applyCommand
  split
  · rfl
  · rename_i j hj
    apply setFirstMatch_other
    intro hij
    exact h (by unfold targets; rw [hj, hij])

theorem applyCommand_cp_hit (s : LoopState) (cmd : MotorCommand) (i : Nat) (hi : i < 13)
    (h : targets cmd (armAt i)) :
    (applyCommand s cmd).current_positions i = cmd.position := by
  unfold applyCommand
  unfold targets at h
  rw [h]
  apply setFirstMatch_hit _ _ _ rfl
  · rw [arm_joints_length, List.mem_range]; exact hi
  · intro x hx hxi
    rw [arm_joints_length, List.mem_range] at hx
    exact armAt_inj x hx i hi hxi

theorem foldl_applyCommand_msg_other (k : Nat) :
    ∀ (cmds : List MotorCommand) (s : LoopState), (∀ c ∈ cmds, ¬ targets c k) →
      (cmds.foldl applyCommand s).msg k = s.msg k
  | [], _, _ => rfl
  | c :: cs, s, h => by
    rw [List.foldl_cons, foldl_applyCommand_msg_other k cs _ (fun d hd => h d (by simp [hd]))]
    exact applyCommand_msg_other s c k (h c (by simp))

theorem foldl_applyCommand_cp_other (i : Nat) :
    ∀ (cmds : List MotorCommand) (s : LoopState), (∀ c ∈ cmds, ¬ targets c (armAt i)) →
      (cmds.foldl applyCommand s).current_positions i = s.current_positions i
  | [], _, _ => rfl
  | c :: cs, s, h => by
    rw [List.foldl_cons, foldl_applyCommand_cp_other i cs _ (fun d hd => h d (by simp [hd]))]
    exact applyCommand_cp_other s c i (h c (by simp))

theorem foldl_applyCommand_cp_last (i : Nat) (hi : i < 13) (pre post : List MotorCommand)
    (c : MotorCommand) (s : LoopState) (hc : targets c (armAt i))
    (hpost : ∀ d ∈ post, ¬ targets d (armAt i)) :
    ((pre ++ c :: post).foldl applyCommand s).current_positions i = c.position := by
  rw [List.foldl_append, List.foldl_cons, foldl_applyCommand_cp_other i post _ hpost]
  exact applyCommand_cp_hit _ c i hi hc

theorem setWeight_q (msg : Nat → MotorCmd) (w : ℚ) : (setWeight msg w kNotUsedJoint).q = w := by
  simp [setWeight, setAt]

theorem tick_enabled_q (s : LoopState) (o : TickObs) (h : o.control_enabled = true) (i : Nat)
    (hi : i < 13) :
    ((tick s o).msg (armAt i)).q =
      (o.commands_to_process.foldl applyCommand
        { msg := setWeight s.msg 1,
          current_positions := seedPositions o.state_q s.current_positions }).current_positions i := by
  simp only [tick, h, if_true]
  rw [writeJoints_apply _ _ i hi]

theorem tick_enabled_cp (s : LoopState) (o : TickObs) (h : o.control_enabled = true) :
    (tick s o).current_positions =
      (o.commands_to_process.foldl applyCommand
        { msg := setWeight s.msg 1,
          current_positions := seedPositions o.state_q s.current_positions }).current_positions := by
  simp only [tick, h, if_true]

theorem tick_untargeted_q (s : LoopState) (o : TickObs) (h : o.control_enabled = true) (i : Nat)
    (hi : i < 13) (hno : ∀ c ∈ o.commands_to_process, ¬ targets c (armAt i)) :
    ((tick s o).msg (armAt i)).q = o.state_q (armAt i) := by
  rw [tick_enabled_q s o h i hi, foldl_applyCommand_cp_other i _ _ hno]
  exact seedPositions_apply _ _ i hi

theorem mainLoop_running (pre : List TickObs) (hpre : ∀ x ∈ pre, x.running = true) :
    ∀ (rest : List TickObs) (s : LoopState),
      mainLoop (pre ++ rest) s =
        ((mainLoop pre s).1 ++ (mainLoop rest (runTicks s pre)).1,
          (mainLoop rest (runTicks s pre)).2) := by
  induction pre with
  | nil => intro rest s; simp [mainLoop, runTicks]
  | cons x xs ih =>
    intro rest s
    have hx : x.running = true := hpre x (by simp)
    have ih1 := ih (fun y hy => hpre y (by simp [hy])) rest (tick s x)
    rw [List.cons_append]
    simp only [mainLoop, hx, if_true]
    rw [ih1]
    simp [runTicks]

theorem mainLoop_running_length (pre : List TickObs) (hpre : ∀ x ∈ pre, x.running = true) :
    ∀ s : LoopState, (mainLoop pre s).1.length = pre.length := by
  induction pre with
  | nil => intro s; simp [mainLoop]
  | cons x xs ih =>
    intro s
    have hx : x.running = true := hpre x (by simp)
    simp [mainLoop, hx, ih (fun y hy => hpre y (by simp [hy]))]

/-! ## The control loop: authority weight and shutdown -/

/-- Claim C1: whatever the state carried over from earlier iterations, the drained
commands and the mirrored joint state are, the frame an iteration publishes has
`q = 1` in record `kNotUsedJoint` (29) when `control_enabled` was read true and
`q = 0` when it was read false. -/
theorem tick_authority_weight (s : LoopState) (o : TickObs) :
    ((tick s o).msg kNotUsedJoint).q = if o.control_enabled then 1 else 0 := by
  cases h : o.control_enabled
  · simp [tick, h, setWeight_q]
  · simp only [tick, h, if_true]
    rw [writeJoints_other _ _ _ (by decide),
      foldl_applyCommand_msg_other _ _ _ (fun c _ => not_targets_weight c)]
    exact setWeight_q _ _

/-- Orderly shutdown: when the loop test first reads `running = false` after the
iterations `pre`, the program publishes the frames of those iterations followed by exactly one
more frame, whose record 29 has `q = 0`; the loop is left, nothing that comes later
(`post`) is looked at, and so the last frame published has authority weight 0. -/
theorem mainLoop_shutdown_frame (pre post : List TickObs) (o : TickObs) (s : LoopState)
    (hpre : ∀ x ∈ pre, x.running = true) (ho : o.running = false) :
    mainLoop (pre ++ o :: post) s
        = ((mainLoop pre s).1 ++ [setWeight (runTicks s pre).msg 0], true)
      ∧ (mainLoop pre s).1.length = pre.length
      ∧ (setWeight (runTicks s pre).msg 0 kNotUsedJoint).q = 0
      ∧ ∀ f, (mainLoop (pre ++ o :: post) s).1.getLast? = some f → (f kNotUsedJoint).q = 0 := by
  have hrun : mainLoop (pre ++ o :: post) s
      = ((mainLoop pre s).1 ++ [setWeight (runTicks s pre).msg 0], true) := by
    rw [mainLoop_running pre hpre]
    simp [mainLoop, ho]
  refine ⟨hrun, mainLoop_running_length pre hpre s, setWeight_q _ _, ?_⟩
  intro f hf
  rw [hrun] at hf
  simp only [List.getLast?_append, List.getLast?_singleton, Option.or_some,
    Option.some.injEq] at hf
  rw [← hf]
  exact setWeight_q _ _

/-- An orderly shutdown: two enabled iterations, then `running = false`, then an
iteration that never happens. -/
theorem mainLoop_shutdown_frame_witness :
    mainLoop ([obsCommand, obsIdle] ++ obsStop :: [obsTwice]) {}
        = ((mainLoop [obsCommand, obsIdle] {}).1
            ++ [setWeight (runTicks {} [obsCommand, obsIdle]).msg 0], true)
      ∧ (mainLoop [obsCommand, obsIdle] {}).1.length = [obsCommand, obsIdle].length
      ∧ (setWeight (runTicks {} [obsCommand, obsIdle]).msg 0 kNotUsedJoint).q = 0
      ∧ ∀ f, (mainLoop ([obsCommand, obsIdle] ++ obsStop :: [obsTwice]) {}).1.getLast? = some f →
          (f kNotUsedJoint).q = 0 :=
  mainLoop_shutdown_frame [obsCommand, obsIdle] [obsTwice] obsStop {}
    (by intro x hx; simp at hx; rcases hx with rfl | rfl <;> rfl) rfl

/-- Claim C2, evaluated on the code: the operator types `start`, the loop publishes a
frame with authority weight 1, and the operator types `left_elbow_roll abc 0`.
`std::stof` throws in the input thread, the process is terminated, the control loop
never reads `running = false` and lines 302-305 never run: the only frame
published, hence the last one, has `q = 1` in record 29. -/
theorem abort_leaves_authority_weight_one :
    (runProgram stofDecimal abortSchedule {}).terminated = true
      ∧ (runProgram stofDecimal abortSchedule {}).loop_left = false
      ∧ (runProgram stofDecimal abortSchedule {}).shared.running = true
      ∧ (runProgram stofDecimal abortSchedule {}).published.map
          (fun f => (f kNotUsedJoint).q) = [1]
      ∧ (runProgram stofDecimal [.line "start", .iteration (fun _ => 0)] {}).published.map
          (fun f => (f kNotUsedJoint).q) = [1]
      ∧ handleLine stofDecimal
          (runProgram stofDecimal [.line "start", .iteration (fun _ => 0)] {}).shared
          "left_elbow_roll abc 0" = .error .invalid_argument := by
  refine ⟨by decide, by decide, by decide, by decide, by decide, rfl⟩

/-! ## The control loop: published positions -/

/-- Counterexample to C3: `left_shoulder_pitch 1` is applied in an enabled iteration
and published as 1; in the next enabled iteration no command is drained, the mirror
reads 5, and the position published for that joint is 5, not 1. -/
theorem sticky_target_refuted :
    obsCommand.control_enabled = true
      ∧ targets (cmdFor "left_shoulder_pitch" 1) kLeftShoulderPitch
      ∧ obsCommand.commands_to_process = [cmdFor "left_shoulder_pitch" 1]
      ∧ ((tick {} obsCommand).msg kLeftShoulderPitch).q = 1
      ∧ obsIdle.control_enabled = true
      ∧ obsIdle.commands_to_process = []
      ∧ ((tick (tick {} obsCommand) obsIdle).msg kLeftShoulderPitch).q = 5
      ∧ ((tick (tick {} obsCommand) obsIdle).msg kLeftShoulderPitch).q ≠ 1 := by
  refine ⟨rfl, by decide, rfl, by decide, rfl, rfl, by decide, by decide⟩

/-- Claim C3, amended: let `c` be the last command targeting the controlled joint `j`
in the batch of an enabled iteration `o1`.  That iteration publishes `c.position`
for `j`.  Every later enabled iteration `o2` whose own batch has no command for `j`
publishes for `j` the position the state mirror holds for `j` in that iteration,
whatever `c.position` was and whatever the iterations in between did: line 253
reads the mirror again at every enabled iteration. -/
theorem position_follows_mirror_after_command (s : LoopState) (o1 o2 : TickObs)
    (mids : List TickObs) (pre post : List MotorCommand) (c : MotorCommand) (j : Nat)
    (h1 : o1.control_enabled = true) (hbatch : o1.commands_to_process = pre ++ c :: post)
    (hcj : targets c j) (hpost : ∀ d ∈ post, ¬ targets d j)
    (h2 : o2.control_enabled = true) (hno : ∀ d ∈ o2.commands_to_process, ¬ targets d j) :
    ((tick s o1).msg j).q = c.position
      ∧ ((tick (runTicks (tick s o1) mids) o2).msg j).q = o2.state_q j := by
  obtain ⟨i, hi, rfl⟩ := (mem_arm_joints j).mp (findJoint_mem _ _ hcj)
  constructor
  · rw [tick_enabled_q s o1 h1 i hi, hbatch]
    exact foldl_applyCommand_cp_last i hi pre post c _ hcj hpost
  · exact tick_untargeted_q _ o2 h2 i hi hno

/-- Witness of the amended C3: `left_shoulder_pitch 1` is published as 1; after an
iteration commanding another joint, an idle enabled iteration with the mirror at 5
publishes 5. -/
theorem position_follows_mirror_after_command_witness :
    ((tick {} obsCommand).msg kLeftShoulderPitch).q = 1
      ∧ ((tick (runTicks (tick {} obsCommand) [obsWaist]) obsIdle).msg kLeftShoulderPitch).q
          = 5 :=
  position_follows_mirror_after_command {} obsCommand obsIdle [obsWaist] [] []
    (cmdFor "left_shoulder_pitch" 1) kLeftShoulderPitch rfl rfl (by decide)
    (by intro d hd; simp at hd) rfl (by intro d hd; simp [obsIdle] at hd)

/-- Claim C4: in an enabled iteration, a controlled joint `j` that no command has
targeted so far (in none of the earlier iterations `pre` nor in this one) is
published with the position the state mirror holds for `j` in this iteration. -/
theorem seeding_tracks_mirror (s : LoopState) (pre : List TickObs) (o : TickObs) (j : Nat)
    (hj : j ∈ arm_joints) (he : o.control_enabled = true)
    (hnever : ∀ x ∈ pre ++ [o], ∀ c ∈ x.commands_to_process, ¬ targets c j) :
    ((tick (runTicks s pre) o).msg j).q = o.state_q j := by
  obtain ⟨i, hi, rfl⟩ := (mem_arm_joints j).mp hj
  exact tick_untargeted_q _ o he i hi (hnever o (by simp))

/-- Witness of C4: the right elbow is never commanded; after an iteration commanding
the left shoulder, an iteration commanding the waist publishes the mirror's 4. -/
theorem seeding_tracks_mirror_witness :
    ((tick (runTicks {} [obsCommand]) obsWaist).msg kRightElbowRoll).q = 4 :=
  seeding_tracks_mirror {} [obsCommand] obsWaist kRightElbowRoll (by decide) rfl
    (by intro x hx c hc
        simp only [List.singleton_append, List.mem_cons, List.mem_singleton,
          List.not_mem_nil, or_false] at hx
        rcases hx with rfl | rfl
        · simp only [obsCommand, List.mem_singleton] at hc
          subst hc
          decide
        · simp only [obsWaist, List.mem_singleton] at hc
          subst hc
          decide)

/-- Claim C5: in an enabled iteration whose batch is `pre ++ c :: post`, where `c`
targets joint `j` and no command of `post` does, the slot of `j` in
`current_positions` after the iteration and the position published for `j` both
equal `c.position`: the last command in queue order wins. -/
theorem last_write_wins (s : LoopState) (o : TickObs) (pre post : List MotorCommand)
    (c : MotorCommand) (j : Nat) (he : o.control_enabled = true)
    (hbatch : o.commands_to_process = pre ++ c :: post) (hc : targets c j)
    (hpost : ∀ d ∈ post, ¬ targets d j) :
    ((tick s o).msg j).q = c.position
      ∧ ∀ i, i < 13 → armAt i = j → (tick s o).current_positions i = c.position := by
  obtain ⟨i, hi, rfl⟩ := (mem_arm_joints j).mp (findJoint_mem _ _ hc)
  constructor
  · rw [tick_enabled_q s o he i hi, hbatch]
    exact foldl_applyCommand_cp_last i hi pre post c _ hc hpost
  · intro k hk hki
    have hik : k = i := armAt_inj k hk i hi hki
    subst hik
    rw [tick_enabled_cp s o he, hbatch]
    exact foldl_applyCommand_cp_last k hk pre post c _ hc hpost

/-- Witness of C5: the batch `left_shoulder_pitch 1`, `left_shoulder_pitch 2` leaves 2. -/
theorem last_write_wins_witness :
    ((tick {} obsTwice).msg kLeftShoulderPitch).q = 2
      ∧ ∀ i, i < 13 → armAt i = kLeftShoulderPitch →
          (tick {} obsTwice).current_positions i = 2 :=
  last_write_wins {} obsTwice [cmdFor "left_shoulder_pitch" 1] []
    (cmdFor "left_shoulder_pitch" 2) kLeftShoulderPitch rfl rfl (by decide)
    (by intro d hd; simp at hd)

/-! ## The command parser -/

/-- Claim C6, evaluated on the code: the line `left_shoulder_pitch 1.57` has exactly
two tokens, a joint name and a readable number, yet for every `stof` the parser
returns the untouched default command with `valid = false` (the test of line 112 is
`tokens.size() < 3`), and the input handler queues nothing. -/
theorem parseCommand_two_tokens_rejected :
    tokenize "left_shoulder_pitch 1.57" = ["left_shoulder_pitch", "1.57"]
      ∧ stofDecimal "1.57" = .ok (157 / 100)
      ∧ (∀ stof, parseCommand stof "left_shoulder_pitch 1.57"
          = .ok { joint_name := "", position := 0, velocity := 0, kp := 60, kd := 3 / 2,
                  tau := 0, valid := false })
      ∧ (∀ stof g, handleLine stof g "left_shoulder_pitch 1.57" = .ok g) := by
  refine ⟨by decide, ?_, fun _ => rfl, fun _ _ => rfl⟩
  simp [stofDecimal, digitsValue]
  norm_num

/-- Claim C7: a line whose tokens are a name followed by two to five tokens that
`stof` reads as numbers parses to a valid command with the name as `joint_name`
and the numbers, in order, as position, velocity, kp, kd and tau; kp, kd and tau
keep their defaults 60, 1.5 and 0 when their token is absent. -/
theorem parseCommand_positional (stof : String → Except StofError ℚ) (line name : String)
    (toks : List String) (vals : List ℚ) (htok : tokenize line = name :: toks)
    (hlen : 2 ≤ toks.length ∧ toks.length ≤ 5)
    (hnum : toks.map stof = vals.map Except.ok) :
    parseCommand stof line
      = .ok { joint_name := name, position := vals.getD 0 0, velocity := vals.getD 1 0,
              kp := vals.getD 2 60, kd := vals.getD 3 (3 / 2), tau := vals.getD 4 0,
              valid := true } := by
  rcases toks with _ | ⟨a, _ | ⟨b, _ | ⟨c, _ | ⟨d, _ | ⟨e, _ | ⟨f, r⟩⟩⟩⟩⟩⟩ <;>
    simp at hlen <;>
    rcases vals with _ | ⟨va, _ | ⟨vb, _ | ⟨vc, _ | ⟨vd, _ | ⟨ve, _ | ⟨vf, vr⟩⟩⟩⟩⟩⟩ <;>
    simp at hnum <;>
    simp [parseCommand, htok, hnum, bind, Except.bind, pure, Except.pure]

/-- Witness of C7: `waist_yaw 0.5 2 40` gives position 0.5, velocity 2, kp 40 and the
defaults kd 1.5 and tau 0. -/
theorem parseCommand_positional_witness :
    parseCommand stofDecimal "waist_yaw 0.5 2 40"
      = .ok { joint_name := "waist_yaw", position := [1 / 2, 2, 40].getD 0 0,
              velocity := [1 / 2, 2, 40].getD 1 0, kp := [1 / 2, 2, 40].getD 2 60,
              kd := [1 / 2, 2, 40].getD 3 (3 / 2), tau := [1 / 2, 2, 40].getD 4 0,
              valid := true } :=
  parseCommand_positional stofDecimal "waist_yaw 0.5 2 40" "waist_yaw" ["0.5", "2", "40"]
    [1 / 2, 2, 40] (by decide) (by decide)
    (by simp [stofDecimal, digitsValue]; norm_num)

/-- Claim C8, evaluated on the code: in `left_elbow_roll abc 0` the position token
is no number; `std::stof` throws `invalid_argument`, and since nothing catches it
neither `parseCommand` nor the input handler returns: no command with
`valid = false` comes back, and the lines after it are never read. -/
theorem parseCommand_throws_on_bad_number :
    tokenize "left_elbow_roll abc 0" = ["left_elbow_roll", "abc", "0"]
      ∧ stofDecimal "abc" = .error .invalid_argument
      ∧ parseCommand stofDecimal "left_elbow_roll abc 0" = .error .invalid_argument
      ∧ (∀ g, handleLine stofDecimal g "left_elbow_roll abc 0" = .error .invalid_argument)
      ∧ (∀ g, g.running = true →
          inputHandler stofDecimal ["left_elbow_roll abc 0", "quit"] g
            = .error .invalid_argument) := by
  refine ⟨by decide, rfl, rfl, fun _ => rfl, ?_⟩
  intro g hg
  simp only [inputHandler, hg, if_true]
  rfl

/-! ## The input handler and the queue -/

/-- Claim C9: a line that parses to a valid command whose joint name is not a key of
`joint_name_map` leaves `pending_commands`, `running` and `control_enabled` as they
were. -/
theorem unknown_joint_leaves_globals (stof : String → Except StofError ℚ) (g : Shared)
    (input : String) (cmd : MotorCommand) (hparse : parseCommand stof input = .ok cmd)
    (hvalid : cmd.valid = true) (hunknown : findJoint cmd.joint_name = none) :
    handleLine stof g input = .ok g := by
  have hkw : ∀ kw : String, tokenize kw = [kw] → input ≠ kw := by
    intro kw hkw hin
    subst hin
    simp [parseCommand, hkw] at hparse
    rw [← hparse] at hvalid
    simp at hvalid
  have hquit := hkw "quit" (by decide)
  have hexit := hkw "exit" (by decide)
  have hstart := hkw "start" (by decide)
  have hstop := hkw "stop" (by decide)
  have hstatus := hkw "status" (by decide)
  have hlist := hkw "list" (by decide)
  simp [handleLine, hquit, hexit, hstart, hstop, hstatus, hlist, hparse, hvalid, hunknown,
    bind, Except.bind]

/-- Witness of C9: `LEFT_ELBOW_ROLL 1 0` is well formed, and its name differs from the
key `left_elbow_roll` in case only. -/
theorem unknown_joint_leaves_globals_witness :
    handleLine stofDecimal { control_enabled := true, pending_commands := [cmdFor "waist_yaw" 3] }
        "LEFT_ELBOW_ROLL 1 0"
      = .ok { control_enabled := true, pending_commands := [cmdFor "waist_yaw" 3] } :=
  unknown_joint_leaves_globals stofDecimal
    { control_enabled := true, pending_commands := [cmdFor "waist_yaw" 3] }
    "LEFT_ELBOW_ROLL 1 0" (cmdFor "LEFT_ELBOW_ROLL" 1)
    (by simp [parseCommand, tokenize, readTokens, isspace, stofDecimal, digitsValue, cmdFor,
          bind, Except.bind, pure, Except.pure])
    rfl (by decide)

theorem runQueue_conserves :
    ∀ (ops : List QueueOp) (g : Shared),
      (runQueue ops g).1.flatten ++ (runQueue ops g).2.pending_commands
        = g.pending_commands ++ pushed ops
  | [], g => by simp [runQueue, pushed]
  | .push cmd :: ops, g => by
    have ih := runQueue_conserves ops (enqueue g cmd)
    simp only [runQueue, pushed]
    rw [ih]
    simp [enqueue]
  | .drainAll :: ops, g => by
    have ih := runQueue_conserves ops (drain g).2
    simp only [runQueue, pushed, List.flatten_cons, List.append_assoc]
    rw [ih]
    simp [drain]

theorem foldl_enqueue_pending (cmds : List MotorCommand) :
    ∀ g : Shared, (cmds.foldl enqueue g).pending_commands = g.pending_commands ++ cmds := by
  induction cmds with
  | nil => intro g; simp
  | cons c cs ih => intro g; simp [ih, enqueue]

/-- Claim C10: `enqueue` appends at the end of `pending_commands`; a drain returns
the queue content and leaves the queue empty, so the drain that follows the enqueues
`cmds` made since the previous drain returns exactly `cmds` in order; and over any
sequence of enqueues and drains the batches returned, in order, followed by what is
still pending are exactly the commands enqueued, each once. -/
theorem drain_returns_enqueued_once (g : Shared) (cmd : MotorCommand)
    (cmds : List MotorCommand) (ops : List QueueOp) :
    (enqueue g cmd).pending_commands = g.pending_commands ++ [cmd]
      ∧ (drain g).1 = g.pending_commands
      ∧ (drain g).2.pending_commands = []
      ∧ (drain (cmds.foldl enqueue (drain g).2)).1 = cmds
      ∧ (drain (cmds.foldl enqueue (drain g).2)).2.pending_commands = []
      ∧ (runQueue ops (drain g).2).1.flatten ++ (runQueue ops (drain g).2).2.pending_commands
          = pushed ops := by
  refine ⟨rfl, rfl, rfl, ?_, rfl, ?_⟩
  · simp [drain, foldl_enqueue_pending]
  · rw [runQueue_conserves]
    simp [drain]

/-! ## The input handler: the `running` flag -/

theorem handleLine_running (stof : String → Except StofError ℚ) (g g2 : Shared)
    (input : String) (h : handleLine stof g input = .ok g2) :
    (g2.running = true → g.running = true)
      ∧ (input ≠ "quit" → input ≠ "exit" → g2.running = g.running) := by
  unfold handleLine at h
  split at h
  · rename_i hq
    simp only [Except.ok.injEq] at h
    subst h
    refine ⟨fun h1 => by simp at h1, fun h1 h2 => ?_⟩
    simp [h1, h2] at hq
  · have hkeep : g2.running = g.running := by
      split at h
      · simp only [Except.ok.injEq] at h; subst h; rfl
      · split at h
        · simp only [Except.ok.injEq] at h; subst h; rfl
        · split at h
          · simp only [Except.ok.injEq] at h; subst h; rfl
          · split at h
            · simp only [Except.ok.injEq] at h; subst h; rfl
            · split at h
              · cases hp : parseCommand stof input with
                | error e => simp [hp, bind, Except.bind] at h
                | ok cmd =>
                  simp only [hp, bind, Except.bind] at h
                  split at h
                  · split at h
                    · simp only [Except.ok.injEq] at h; subst h; rfl
                    · simp only [Except.ok.injEq] at h; subst h; rfl
                  · simp only [Except.ok.injEq] at h; subst h; rfl
              · simp only [Except.ok.injEq] at h; subst h; rfl
    exact ⟨fun h1 => hkeep ▸ h1, fun _ _ => hkeep⟩

theorem inputHandler_stopped (stof : String → Except StofError ℚ) (lines : List String)
    (g : Shared) (h : g.running = false) : inputHandler stof lines g = .ok g := by
  cases lines with
  | nil => rfl
  | cons x xs => simp [inputHandler, h]

theorem inputHandler_append_stopped (stof : String → Except StofError ℚ)
    (later : List String) :
    ∀ (lines : List String) (g g1 : Shared), inputHandler stof lines g = .ok g1 →
      g1.running = false → inputHandler stof (lines ++ later) g = .ok g1
  | [], g, g1, h, hstop => by
    simp only [inputHandler, Except.ok.injEq] at h
    subst h
    exact inputHandler_stopped stof _ g hstop
  | x :: xs, g, g1, h, hstop => by
    rw [List.cons_append]
    unfold inputHandler at h ⊢
    cases hr : g.running with
    | false => simpa [hr] using h
    | true =>
      simp only [hr, if_true] at h ⊢
      split
      · rename_i hq
        simpa [hq] using h
      · rename_i hq
        simp only [hq] at h
        cases hl : handleLine stof g x with
        | error e => simp [hl] at h
        | ok g2 =>
          simp only [hl] at h ⊢
          exact inputHandler_append_stopped stof later xs g2 g1 h hstop

theorem inputHandler_running_mono (stof : String → Except StofError ℚ) :
    ∀ (lines : List String) (g g1 : Shared), inputHandler stof lines g = .ok g1 →
      g1.running = true → g.running = true
  | [], g, g1, h, h1 => by
    simp only [inputHandler, Except.ok.injEq] at h
    subst h
    exact h1
  | x :: xs, g, g1, h, h1 => by
    unfold inputHandler at h
    cases hr : g.running with
    | true => rfl
    | false =>
      simp only [hr] at h
      simp only [Bool.false_eq_true, if_false, Except.ok.injEq] at h
      subst h
      rw [hr] at h1
      exact h1

theorem inputHandler_running_keep (stof : String → Except StofError ℚ) :
    ∀ (lines : List String) (g g1 : Shared), (∀ l ∈ lines, l ≠ "quit" ∧ l ≠ "exit") →
      inputHandler stof lines g = .ok g1 → g1.running = g.running
  | [], g, g1, _, h => by
    simp only [inputHandler, Except.ok.injEq] at h
    subst h
    rfl
  | x :: xs, g, g1, hl, h => by
    unfold inputHandler at h
    have hx := hl x (by simp)
    cases hr : g.running with
    | false =>
      simp only [hr, Bool.false_eq_true, if_false, Except.ok.injEq] at h
      subst h
      exact hr
    | true =>
      have hq : ¬ ((x == "quit" || x == "exit") = true) := by simp [hx.1, hx.2]
      simp only [hr, if_true, hq, if_false] at h
      cases hs : handleLine stof g x with
      | error e => simp [hs] at h
      | ok g2 =>
        simp only [hs] at h
        have h2 := inputHandler_running_keep stof xs g2 g1 (fun l hl1 => hl l (by simp [hl1])) h
        rw [h2, (handleLine_running stof g g2 x hs).2 hx.1 hx.2, hr]

/-- Claim C11: `running` starts out true; if the handler, after the lines `lines`, has
`running = false`, then whatever lines follow are not processed (the result is the
same state, `running` still false); no pass of the handler turns `running` from
false to true, and a pass over a line other than exactly `quit` or `exit` leaves
`running` as it was, for single lines and for whole sequences of lines. -/
theorem running_irreversible (stof : String → Except StofError ℚ) (g g1 : Shared)
    (lines later : List String) (hrun : inputHandler stof lines g = .ok g1)
    (hstop : g1.running = false) :
    ({} : Shared).running = true
      ∧ inputHandler stof (lines ++ later) g = .ok g1
      ∧ (∀ input g2 g3, handleLine stof g2 input = .ok g3 →
          (g3.running = true → g2.running = true)
            ∧ (input ≠ "quit" → input ≠ "exit" → g3.running = g2.running))
      ∧ (∀ ls g2 g3, inputHandler stof ls g2 = .ok g3 →
          (g3.running = true → g2.running = true)
            ∧ ((∀ l ∈ ls, l ≠ "quit" ∧ l ≠ "exit") → g3.running = g2.running)) :=
  ⟨rfl, inputHandler_append_stopped stof later lines g g1 hrun hstop,
    fun input g2 g3 h => handleLine_running stof g2 g3 input h,
    fun ls g2 g3 h => ⟨inputHandler_running_mono stof ls g2 g3 h,
      fun hl => inputHandler_running_keep stof ls g2 g3 hl h⟩⟩

/-- Witness of C11: after `start`, `exit` the flag is false; the lines typed afterwards,
among them `start` and one that would make `std::stof` throw, change nothing. -/
theorem running_irreversible_witness :
    inputHandler stofDecimal (["start", "exit"] ++ ["start", "left_elbow_roll abc 0", "stop"]) {}
      = .ok { running := false, control_enabled := true, pending_commands := [] } :=
  (running_irreversible stofDecimal {}
    { running := false, control_enabled := true, pending_commands := [] }
    ["start", "exit"] ["start", "left_elbow_roll abc 0", "stop"] rfl rfl).2.1

/-! ## The control loop: what a tick writes besides positions -/

theorem setWeight_other (msg : Nat → MotorCmd) (w : ℚ) (k : Nat) (hk : k ≠ kNotUsedJoint) :
    setWeight msg w k = msg k := by
  unfold setWeight
  exact setAt_other _ _ _ _ hk

theorem tick_disabled (s : LoopState) (o : TickObs) (h : o.control_enabled = false) :
    tick s o = { s with msg := setWeight s.msg 0 } := by
  simp [tick, h]

theorem tick_enabled_record (s : LoopState) (o : TickObs) (h : o.control_enabled = true)
    (i : Nat) (hi : i < 13) :
    (tick s o).msg (armAt i)
      = { q := (tick s o).current_positions i, dq := 0, kp := 60, kd := 3 / 2, tau := 0 } := by
  simp only [tick, h, if_true]
  rw [writeJoints_apply _ _ i hi]

theorem tick_msg_other (s : LoopState) (o : TickObs) (k : Nat) (hk : k ∉ arm_joints)
    (hw : k ≠ kNotUsedJoint) : (tick s o).msg k = s.msg k := by
  cases h : o.control_enabled
  · rw [tick_disabled s o h]
    exact setWeight_other _ _ k hw
  · simp only [tick, h, if_true]
    rw [writeJoints_other _ _ k hk,
      foldl_applyCommand_msg_other k _ _
        (fun c _ hc => hk (findJoint_mem _ _ hc))]
    exact setWeight_other _ _ k hw

theorem runTicks_msg_other (k : Nat) (hk : k ∉ arm_joints) (hw : k ≠ kNotUsedJoint) :
    ∀ (obs : List TickObs) (s : LoopState), (runTicks s obs).msg k = s.msg k
  | [], _ => rfl
  | o :: rest, s => by
    unfold runTicks
    rw [List.foldl_cons]
    exact (runTicks_msg_other k hk hw rest (tick s o)).trans (tick_msg_other s o k hk hw)

theorem mainLoop_msg_other (k : Nat) (hk : k ∉ arm_joints) (hw : k ≠ kNotUsedJoint) :
    ∀ (obs : List TickObs) (s : LoopState), ∀ f ∈ (mainLoop obs s).1, f k = s.msg k
  | [], _, f, hf => by simp [mainLoop] at hf
  | o :: rest, s, f, hf => by
    unfold mainLoop at hf
    cases hr : o.running with
    | false =>
      simp only [hr, Bool.false_eq_true, if_false, List.mem_singleton] at hf
      subst hf
      exact setWeight_other _ _ k hw
    | true =>
      simp only [hr, if_true, List.mem_cons] at hf
      rcases hf with hf | hf
      · subst hf
        exact tick_msg_other s o k hk hw
      · exact (mainLoop_msg_other k hk hw rest (tick s o) f hf).trans
          (tick_msg_other s o k hk hw)

/-- Claim C12, evaluated on the code: the enabled iteration drains the single command
`left_shoulder_pitch 1 0.5 40 2 1`; the record published for that joint has the
command's position but velocity 0, kp 60, kd 1.5 and tau 0, not the command's 0.5,
40, 2 and 1.  It is so for every enabled iteration and every controlled joint:
lines 285-288 write the defaults after the commands were applied. -/
theorem command_gains_overwritten :
    obsGains.control_enabled = true
      ∧ obsGains.commands_to_process = [cmdGains]
      ∧ targets cmdGains kLeftShoulderPitch
      ∧ (tick {} obsGains).msg kLeftShoulderPitch
          = { q := cmdGains.position, dq := 0, kp := 60, kd := 3 / 2, tau := 0 }
      ∧ ((tick {} obsGains).msg kLeftShoulderPitch).dq ≠ cmdGains.velocity
      ∧ ((tick {} obsGains).msg kLeftShoulderPitch).kp ≠ cmdGains.kp
      ∧ ((tick {} obsGains).msg kLeftShoulderPitch).kd ≠ cmdGains.kd
      ∧ ((tick {} obsGains).msg kLeftShoulderPitch).tau ≠ cmdGains.tau
      ∧ (∀ (s : LoopState) (o : TickObs) (j : Nat), o.control_enabled = true → j ∈ arm_joints →
          ((tick s o).msg j).dq = 0 ∧ ((tick s o).msg j).kp = 60
            ∧ ((tick s o).msg j).kd = 3 / 2 ∧ ((tick s o).msg j).tau = 0) := by
  have hrec : (tick {} obsGains).msg kLeftShoulderPitch
      = { q := cmdGains.position, dq := 0, kp := 60, kd := 3 / 2, tau := 0 } := by
    have h := tick_enabled_record {} obsGains rfl 0 (by decide)
    have hq : (tick {} obsGains).current_positions 0 = cmdGains.position := by
      rw [tick_enabled_cp {} obsGains rfl]
      exact foldl_applyCommand_cp_last 0 (by decide) [] [] cmdGains _ (by decide)
        (by intro d hd; simp at hd)
    rw [hq] at h
    exact h
  refine ⟨rfl, rfl, by decide, hrec, ?_, ?_, ?_, ?_, ?_⟩
  · rw [hrec]; simp [cmdGains]
  · rw [hrec]; simp [cmdGains]
  · rw [hrec]; simp [cmdGains]; norm_num
  · rw [hrec]; simp [cmdGains]
  · intro s o j he hj
    obtain ⟨i, hi, rfl⟩ := (mem_arm_joints j).mp hj
    rw [tick_enabled_record s o he i hi]
    exact ⟨rfl, rfl, rfl, rfl⟩

/-- Counterexample to C13: `left_shoulder_pitch 1` is drained in an iteration with
control disabled.  That iteration leaves `current_positions` and the joint's record
as they were, and the next enabled iteration, which drains nothing while the mirror
reads 5, publishes 5 for the joint, not 1. -/
theorem disabled_tick_drops_command :
    obsDisabledCommand.control_enabled = false
      ∧ obsDisabledCommand.commands_to_process = [cmdFor "left_shoulder_pitch" 1]
      ∧ targets (cmdFor "left_shoulder_pitch" 1) kLeftShoulderPitch
      ∧ armAt 0 = kLeftShoulderPitch
      ∧ (tick {} obsDisabledCommand).current_positions 0 = 0
      ∧ ((tick {} obsDisabledCommand).msg kLeftShoulderPitch).q = 0
      ∧ obsIdle.control_enabled = true
      ∧ obsIdle.commands_to_process = []
      ∧ ((tick (tick {} obsDisabledCommand) obsIdle).msg kLeftShoulderPitch).q = 5
      ∧ ((tick (tick {} obsDisabledCommand) obsIdle).msg kLeftShoulderPitch).q ≠ 1 := by
  refine ⟨rfl, rfl, by decide, rfl, by decide, by decide, rfl, rfl, by decide, by decide⟩

theorem handleLine_enqueues (stof : String → Except StofError ℚ) (g : Shared)
    (input : String) (cmd : MotorCommand) (j : Nat) (hparse : parseCommand stof input = .ok cmd)
    (hvalid : cmd.valid = true) (hj : targets cmd j) :
    handleLine stof g input = .ok (enqueue g cmd) := by
  have hkw : ∀ kw : String, tokenize kw = [kw] ∨ tokenize kw = [] → input ≠ kw := by
    intro kw hkw hin
    subst hin
    rcases hkw with hkw | hkw <;>
    · simp [parseCommand, hkw] at hparse
      rw [← hparse] at hvalid
      simp at hvalid
  have hquit := hkw "quit" (by decide)
  have hexit := hkw "exit" (by decide)
  have hstart := hkw "start" (by decide)
  have hstop := hkw "stop" (by decide)
  have hstatus := hkw "status" (by decide)
  have hlist := hkw "list" (by decide)
  have hempty := hkw "" (by decide)
  have hne : input.isEmpty = false := by
    cases h : input.isEmpty
    · rfl
    · exact absurd ((String.isEmpty_iff input).mp h) hempty
  unfold targets at hj
  simp [handleLine, hquit, hexit, hstart, hstop, hstatus, hlist, hne, hparse, hvalid, hj,
    bind, Except.bind]

/-- Claim C13, amended: a line that parses to a valid command `c` with a resolvable
joint name is enqueued by the input handler, and the drain that follows returns
it, after what was pending and before what was enqueued later, and empties the
queue.  If `c` is the last command for its joint `j` in that batch, the iteration
that drains it applies it when `control_enabled` is read true there
(`current_positions` and the published position of `j` become `c.position`).  When
`control_enabled` is read false there, the batch is discarded: `current_positions`
and every record but record 29 stay as they were, and every later enabled iteration
whose batch has no command for `j` publishes the mirror's position for `j`. -/
theorem enqueued_command_applied_only_when_enabled (stof : String → Except StofError ℚ)
    (g : Shared) (input : String) (c : MotorCommand) (later : List MotorCommand)
    (s : LoopState) (o o2 : TickObs) (mids : List TickObs) (j : Nat)
    (hparse : parseCommand stof input = .ok c) (hvalid : c.valid = true) (hc : targets c j)
    (hlater : ∀ d ∈ later, ¬ targets d j)
    (hdrain : o.commands_to_process = (drain (later.foldl enqueue (enqueue g c))).1)
    (h2 : o2.control_enabled = true) (hno : ∀ d ∈ o2.commands_to_process, ¬ targets d j) :
    handleLine stof g input = .ok (enqueue g c)
      ∧ (drain (later.foldl enqueue (enqueue g c))).1 = g.pending_commands ++ c :: later
      ∧ (drain (later.foldl enqueue (enqueue g c))).2.pending_commands = []
      ∧ (o.control_enabled = true →
          ((tick s o).msg j).q = c.position
            ∧ ∀ i, i < 13 → armAt i = j → (tick s o).current_positions i = c.position)
      ∧ (o.control_enabled = false →
          (tick s o).current_positions = s.current_positions
            ∧ (∀ k, k ≠ kNotUsedJoint → (tick s o).msg k = s.msg k)
            ∧ ((tick (runTicks (tick s o) mids) o2).msg j).q = o2.state_q j) := by
  have hbatch : (drain (later.foldl enqueue (enqueue g c))).1
      = g.pending_commands ++ c :: later := by
    simp [drain, foldl_enqueue_pending, enqueue]
  rw [hbatch] at hdrain
  refine ⟨handleLine_enqueues stof g input c j hparse hvalid hc, hbatch, rfl, ?_, ?_⟩
  · obtain ⟨i, hi, rfl⟩ := (mem_arm_joints j).mp (findJoint_mem _ _ hc)
    intro he
    have hcp : (tick s o).current_positions i = c.position := by
      rw [tick_enabled_cp s o he, hdrain]
      exact foldl_applyCommand_cp_last i hi g.pending_commands later c _ hc hlater
    refine ⟨?_, ?_⟩
    · rw [tick_enabled_record s o he i hi, hcp]
    · intro k hk hki
      have hik : k = i := armAt_inj k hk i hi hki
      subst hik
      exact hcp
  · obtain ⟨i, hi, rfl⟩ := (mem_arm_joints j).mp (findJoint_mem _ _ hc)
    intro hd
    refine ⟨?_, ?_, tick_untargeted_q _ o2 h2 i hi hno⟩
    · rw [tick_disabled s o hd]
    · intro k hk
      rw [tick_disabled s o hd]
      exact setWeight_other _ _ k hk

/-- Witness of the amended C13: the line `left_shoulder_pitch 1 0` is enqueued on the
empty queue and drained, once by an enabled iteration and once by a disabled one,
each followed by another disabled iteration and then an idle enabled iteration with
the mirror at 5. -/
theorem enqueued_command_applied_only_when_enabled_witness :
    handleLine stofDecimal {} "left_shoulder_pitch 1 0"
        = .ok (enqueue {} (cmdFor "left_shoulder_pitch" 1))
      ∧ (((tick {} obsCommand).msg kLeftShoulderPitch).q = 1
          ∧ ∀ i, i < 13 → armAt i = kLeftShoulderPitch →
              (tick {} obsCommand).current_positions i = 1)
      ∧ ((tick {} obsDisabledCommand).current_positions = ({} : LoopState).current_positions
          ∧ (∀ k, k ≠ kNotUsedJoint →
              (tick {} obsDisabledCommand).msg k = ({} : LoopState).msg k)
          ∧ ((tick (runTicks (tick {} obsDisabledCommand) [obsDisabledCommand]) obsIdle).msg
              kLeftShoulderPitch).q = 5) :=
  have hparse : parseCommand stofDecimal "left_shoulder_pitch 1 0"
      = .ok (cmdFor "left_shoulder_pitch" 1) := by
    simp [parseCommand, tokenize, readTokens, isspace, stofDecimal, digitsValue, cmdFor,
      bind, Except.bind, pure, Except.pure]
  ⟨(enqueued_command_applied_only_when_enabled stofDecimal {} "left_shoulder_pitch 1 0"
      (cmdFor "left_shoulder_pitch" 1) [] {} obsCommand obsIdle [obsDisabledCommand]
      kLeftShoulderPitch hparse rfl (by decide) (by intro d hd; simp at hd) rfl rfl
      (by intro d hd; simp [obsIdle] at hd)).1,
   (enqueued_command_applied_only_when_enabled stofDecimal {} "left_shoulder_pitch 1 0"
      (cmdFor "left_shoulder_pitch" 1) [] {} obsCommand obsIdle [obsDisabledCommand]
      kLeftShoulderPitch hparse rfl (by decide) (by intro d hd; simp at hd) rfl rfl
      (by intro d hd; simp [obsIdle] at hd)).2.2.2.1 rfl,
   (enqueued_command_applied_only_when_enabled stofDecimal {} "left_shoulder_pitch 1 0"
      (cmdFor "left_shoulder_pitch" 1) [] {} obsDisabledCommand obsIdle [obsDisabledCommand]
      kLeftShoulderPitch hparse rfl (by decide) (by intro d hd; simp at hd) rfl rfl
      (by intro d hd; simp [obsIdle] at hd)).2.2.2.2 rfl⟩

/-- Claim C14: a record whose index is neither a controlled joint nor the weight
index 29 is never written: after any sequence of iterations, and in every frame the
program publishes (the one of the epilogue included), it is what it was at the
start, hence the all-zero default record when the loop starts from the
default-initialised state. -/
theorem uncontrolled_records_stay_default (obs : List TickObs) (s : LoopState) (k : Nat)
    (hk : k ∉ arm_joints) (hw : k ≠ kNotUsedJoint) :
    (runTicks s obs).msg k = s.msg k
      ∧ (∀ f ∈ (mainLoop obs s).1, f k = s.msg k)
      ∧ (runTicks {} obs).msg k = { q := 0, dq := 0, kp := 0, kd := 0, tau := 0 }
      ∧ (∀ f ∈ (mainLoop obs {}).1, f k = { q := 0, dq := 0, kp := 0, kd := 0, tau := 0 }) :=
  ⟨runTicks_msg_other k hk hw obs s, mainLoop_msg_other k hk hw obs s,
    runTicks_msg_other k hk hw obs {}, mainLoop_msg_other k hk hw obs {}⟩

/-- Witness of C14: the left knee (index 3) over enabled, disabled and idle
iterations followed by the shutdown. -/
theorem uncontrolled_records_stay_default_witness :
    (runTicks (tick {} obsGains) [obsCommand, obsDisabledCommand, obsIdle, obsStop]).msg kLeftKnee
        = (tick {} obsGains).msg kLeftKnee
      ∧ (∀ f ∈ (mainLoop [obsCommand, obsDisabledCommand, obsIdle, obsStop]
            (tick {} obsGains)).1, f kLeftKnee = (tick {} obsGains).msg kLeftKnee)
      ∧ (runTicks {} [obsCommand, obsDisabledCommand, obsIdle, obsStop]).msg kLeftKnee
          = { q := 0, dq := 0, kp := 0, kd := 0, tau := 0 }
      ∧ (∀ f ∈ (mainLoop [obsCommand, obsDisabledCommand, obsIdle, obsStop] {}).1,
          f kLeftKnee = { q := 0, dq := 0, kp := 0, kd := 0, tau := 0 }) :=
  uncontrolled_records_stay_default [obsCommand, obsDisabledCommand, obsIdle, obsStop]
    (tick {} obsGains) kLeftKnee (by decide) (by decide)

/-- Claim C15: `joint_name_map` has 13 entries with pairwise distinct names and
pairwise distinct indices; `arm_joints` has 13 pairwise distinct entries; an index
is a value of `joint_name_map` exactly when it is an entry of `arm_joints`; 29 is
none of them; and a name that resolves gives an index other than 29 that sits in
exactly one slot of `arm_joints`. -/
theorem registry_matches_controlled_joints :
    joint_name_map.length = 13
      ∧ (joint_name_map.map Prod.fst).Nodup
      ∧ (joint_name_map.map Prod.snd).Nodup
      ∧ arm_joints.length = 13
      ∧ arm_joints.Nodup
      ∧ (∀ j, j ∈ joint_name_map.map Prod.snd ↔ j ∈ arm_joints)
      ∧ kNotUsedJoint ∉ arm_joints
      ∧ kNotUsedJoint ∉ joint_name_map.map Prod.snd
      ∧ (∀ p ∈ joint_name_map, findJoint p.1 = some p.2)
      ∧ (∀ name j, findJoint name = some j →
          j ≠ kNotUsedJoint ∧ ∃ i, (i < 13 ∧ armAt i = j) ∧ ∀ i2, i2 < 13 ∧ armAt i2 = j → i2 = i) := by
  refine ⟨rfl, by decide, by decide, rfl, by decide, ?_, by decide, by decide, by decide, ?_⟩
  · intro j
    simp only [joint_name_map, arm_joints, List.map, List.mem_cons, List.mem_singleton,
      List.not_mem_nil, or_false]
  · intro name j h
    have hj := findJoint_mem name j h
    refine ⟨?_, ?_⟩
    · intro h29
      rw [h29] at hj
      revert hj
      decide
    · obtain ⟨i, hi, hij⟩ := (mem_arm_joints j).mp hj
      refine ⟨i, ⟨hi, hij⟩, ?_⟩
      rintro i2 ⟨hi2, hij2⟩
      exact armAt_inj i2 hi2 i hi (hij2.trans hij.symm)

/-- Claim C16: an iteration with control disabled leaves every record but record 29
as it was, whatever it drained; in record 29 it sets `q` to 0 and keeps the other
fields.  Hence after an enabled iteration followed by a disabled one, the record of
every controlled joint is the one the enabled iteration published, with kp 60 and
kd 1.5, and the authority weight is 0. -/
theorem disabled_tick_changes_weight_only (s s0 : LoopState) (o o1 : TickObs)
    (hd : o.control_enabled = false) (h1 : o1.control_enabled = true) :
    (∀ k, k ≠ kNotUsedJoint → (tick s o).msg k = s.msg k)
      ∧ (tick s o).msg kNotUsedJoint = { s.msg kNotUsedJoint with q := 0 }
      ∧ (tick s o).current_positions = s.current_positions
      ∧ (∀ j ∈ arm_joints,
          (tick (tick s0 o1) o).msg j = (tick s0 o1).msg j
            ∧ ((tick (tick s0 o1) o).msg j).kp = 60
            ∧ ((tick (tick s0 o1) o).msg j).kd = 3 / 2)
      ∧ ((tick (tick s0 o1) o).msg kNotUsedJoint).q = 0 := by
  have hother : ∀ (t : LoopState) (k : Nat), k ≠ kNotUsedJoint → (tick t o).msg k = t.msg k := by
    intro t k hk
    rw [tick_disabled t o hd]
    exact setWeight_other _ _ k hk
  refine ⟨hother s, ?_, ?_, ?_, ?_⟩
  · rw [tick_disabled s o hd]
    simp [setWeight, setAt]
  · rw [tick_disabled s o hd]
  · intro j hj
    obtain ⟨i, hi, rfl⟩ := (mem_arm_joints j).mp hj
    have hrec := hother (tick s0 o1) (armAt i) (armAt_ne_weight i hi)
    refine ⟨hrec, ?_, ?_⟩
    · rw [hrec, tick_enabled_record s0 o1 h1 i hi]
    · rw [hrec, tick_enabled_record s0 o1 h1 i hi]
  · rw [tick_disabled _ o hd]
    exact setWeight_q _ _

/-- Witness of C16: `left_shoulder_pitch 1` applied with control enabled, then a
disabled iteration that drains another command. -/
theorem disabled_tick_changes_weight_only_witness :
    (∀ k, k ≠ kNotUsedJoint →
        (tick (tick {} obsTwice) obsDisabledCommand).msg k = (tick {} obsTwice).msg k)
      ∧ (tick (tick {} obsTwice) obsDisabledCommand).msg kNotUsedJoint
          = { (tick {} obsTwice).msg kNotUsedJoint with q := 0 }
      ∧ (tick (tick {} obsTwice) obsDisabledCommand).current_positions
          = (tick {} obsTwice).current_positions
      ∧ (∀ j ∈ arm_joints,
          (tick (tick {} obsCommand) obsDisabledCommand).msg j = (tick {} obsCommand).msg j
            ∧ ((tick (tick {} obsCommand) obsDisabledCommand).msg j).kp = 60
            ∧ ((tick (tick {} obsCommand) obsDisabledCommand).msg j).kd = 3 / 2)
      ∧ ((tick (tick {} obsCommand) obsDisabledCommand).msg kNotUsedJoint).q = 0 :=
  disabled_tick_changes_weight_only (tick {} obsTwice) {} obsDisabledCommand obsCommand rfl rfl

end MotorControl
